import Mathlib

/-!
Verification of the pending-response correlation registry and command
dispatcher of the Ableton Live OSC bridging daemon (osc_daemon.py).

The daemon keeps a map from OSC address strings to asyncio futures
(pending_responses), guarded by an asyncio lock. The datagram receiver
callback (handle_ableton_message) resolves and removes waiters; the
relay path (send_osc_with_response) registers a waiter, sends the
outbound datagram and awaits the future with a timeout; the command
dispatcher (process_command) routes between the relay-and-await path
and the fire-and-forget path based on a fixed list of response-bearing
address heads.

The embedding models the map as an association list, futures as an
explicit heap keyed by numeric ids, and the asynchronous environment
(reply datagrams arriving during the wait window, or the send raising)
as an explicit event parameter.
-/

/-- Primitive OSC argument values carried in datagrams. -/
inductive OscArg where
  | int (n : Int)
  | str (v : String)
deriving DecidableEq, Repr

/-- JSON response envelope written back to the MCP client. Fields mirror
the dict keys used in osc_daemon.py; absent keys are none. -/
structure Envelope where
  status : String
  message : Option String := none
  address : Option String := none
  data : Option (List OscArg) := none
  daemon : Option String := none
  ableton_host : Option String := none
  ableton_port : Option Nat := none
  receive_port : Option Nat := none
  socket_port : Option Nat := none
deriving DecidableEq, Repr

/-- State of an asyncio future used as a pending waiter. -/
inductive FutState where
  | pending
  | resolved (result : Envelope)
  | cancelled
deriving DecidableEq, Repr

/-- Daemon configuration fields read by get_status. -/
structure Config where
  socket_host : String
  socket_port : Nat
  ableton_host : String
  ableton_port : Nat
  receive_port : Nat
  response_timeout : Nat
deriving DecidableEq, Repr

/-- Mutable daemon state: the pending_responses dict maps an address to
the id of a future; the futures heap gives each future its state. -/
structure DaemonState where
  pending_responses : List (String × Nat)
  futures : List (Nat × FutState)
  nextId : Nat
deriving DecidableEq, Repr

/-- Lookup in an association list (first binding wins, as in a dict with
distinct keys). -/
def lookupKey {α β : Type} [DecidableEq α] : List (α × β) → α → Option β
  | [], _ => none
  | (k, v) :: rest, a => if k = a then some v else lookupKey rest a

/-- Remove the first binding of a key (python del d[k] under the
distinct-keys invariant). -/
def eraseKey {α β : Type} [DecidableEq α] : List (α × β) → α → List (α × β)
  | [], _ => []
  | (k, v) :: rest, a => if k = a then rest else (k, v) :: eraseKey rest a

/-- Replace the value of an existing binding in place; identity when the
key is absent. -/
def setKey {α β : Type} [DecidableEq α] : List (α × β) → α → β → List (α × β)
  | [], _, _ => []
  | (k, v) :: rest, a, b => if k = a then (a, b) :: rest else (k, v) :: setKey rest a b

/-- Python dict assignment d[k] = v: replace in place when the key is
present, append a fresh binding otherwise. -/
def insertReplace {α β : Type} [DecidableEq α] (l : List (α × β)) (a : α) (b : β) :
    List (α × β) :=
  if (lookupKey l a).isSome then setKey l a b else l ++ [(a, b)]

/-- Boolean membership in a list. -/
def memB {α : Type} [DecidableEq α] (a : α) : List α → Bool
  | [] => false
  | b :: r => a = b || memB a r

/-- Boolean distinctness of a list. -/
def noDupB {α : Type} [DecidableEq α] : List α → Bool
  | [] => true
  | a :: r => !(memB a r) && noDupB r

/-- Keys of an association list. -/
def keysOf {α β : Type} (l : List (α × β)) : List α := l.map Prod.fst

/-- Distinctness of the keys of an association list (the dict invariant). -/
def nodupKeys {α β : Type} [DecidableEq α] (l : List (α × β)) : Bool :=
  noDupB (keysOf l)

/-- Modelled from python str.startswith on the character lists. -/
def listStartsWith : List Char → List Char → Bool
  | _, [] => true
  | [], _ :: _ => false
  | c :: cs, d :: ds => decide (c = d) && listStartsWith cs ds

/-- Python address.startswith(p). -/
def strStartsWith (s p : String) : Bool := listStartsWith s.data p.data

/-- The fixed allow-list RESPONSE_PREFIXES of response-bearing OSC
address heads, verbatim from osc_daemon.py. -/
def RESPONSE_PREFIXES : List String :=
  [ "/live/device/get"
  , "/live/scene/get"
  , "/live/view/get"
  , "/live/clip/get"
  , "/live/clip_slot/get"
  , "/live/track/get"
  , "/live/song/get"
  , "/live/api/get"
  , "/live/application/get"
  , "/live/test"
  , "/live/error" ]

/-- Translation of AbletonOSCDaemon.expects_response: the address
matches when it starts with any of the response-bearing heads. -/
def expectsResponse (address : String) : Bool :=
  RESPONSE_PREFIXES.any (fun p => strStartsWith address p)

/-- Whether a future counts as done for future.done(). -/
def futureDone : FutState → Bool
  | FutState.pending => false
  | FutState.resolved _ => true
  | FutState.cancelled => true

/-- The success payload set on a resolved future by the receiver:
a dict with status success, the address and the datagram arguments. -/
def successEnvelope (address : String) (args : List OscArg) : Envelope :=
  { status := "success", address := some address, data := some args }

/-- The timeout error envelope of send_osc_with_response. -/
def timeoutEnvelope (address : String) : Envelope :=
  { status := "error"
  , message := some ("Timeout waiting for response to " ++ address)
  , address := some address }

/-- The transport error envelope of send_osc_with_response and of
send_osc_fire_and_forget. -/
def sendErrorEnvelope (address : String) (emsg : String) : Envelope :=
  { status := "error"
  , message := some ("Error sending OSC message: " ++ emsg)
  , address := some address }

/-- The acknowledgement envelope of send_osc_fire_and_forget. -/
def sentEnvelope (address : String) : Envelope :=
  { status := "sent", address := some address }

/-- Translation of handle_ableton_message: when the address has a
pending entry, set the success result on its future unless the future
is already done, then delete the entry; otherwise the datagram is
dropped and the state is unchanged. -/
def handleAbletonMessage (s : DaemonState) (address : String) (args : List OscArg) :
    DaemonState :=
  match lookupKey s.pending_responses address with
  | some fid =>
      let futures1 :=
        match lookupKey s.futures fid with
        | some fs =>
            if futureDone fs then s.futures
            else setKey s.futures fid (FutState.resolved (successEnvelope address args))
        | none => s.futures
      { s with
        futures := futures1
        pending_responses := eraseKey s.pending_responses address }
  | none => s

/-- Registration step of send_osc_with_response, performed under the
response lock: create a fresh future and store it under the address,
silently replacing any existing entry (python dict assignment). -/
def registerWaiter (s : DaemonState) (address : String) : Nat × DaemonState :=
  ( s.nextId
  , { pending_responses := insertReplace s.pending_responses address s.nextId
    , futures := s.futures ++ [(s.nextId, FutState.pending)]
    , nextId := s.nextId + 1 } )

/-- Run the datagram receiver over a batch of inbound datagrams. -/
def runInbound (s : DaemonState) (msgs : List (String × List OscArg)) : DaemonState :=
  msgs.foldl (fun st m => handleAbletonMessage st m.1 m.2) s

/-- Cancel a future (asyncio wait_for on timeout); a no-op on a future
that is already done. -/
def cancelKey (fs : List (Nat × FutState)) (fid : Nat) : List (Nat × FutState) :=
  match lookupKey fs fid with
  | some FutState.pending => setKey fs fid FutState.cancelled
  | _ => fs

/-- Environment of one relay send: either the socket send raises with a
message, or the send succeeds and the given datagrams arrive at the
receiver before the deadline. -/
inductive SendEvent where
  | sendFails (emsg : String)
  | inbound (msgs : List (String × List OscArg))
deriving DecidableEq, Repr

/-- Translation of send_osc_with_response: register a waiter under the
lock; on a send exception remove the entry under the lock and return a
transport error envelope; otherwise let the receiver process the
datagrams of the wait window, and return the result of the future when
it was resolved, or clean up the entry under the lock and return the
timeout error envelope when it was not. -/
def sendOscWithResponse (s : DaemonState) (address : String) (args : List OscArg)
    (ev : SendEvent) : Envelope × DaemonState :=
  let r := registerWaiter s address
  let fid := r.1
  let s1 := r.2
  match ev with
  | SendEvent.sendFails emsg =>
      ( sendErrorEnvelope address emsg
      , { s1 with pending_responses := eraseKey s1.pending_responses address } )
  | SendEvent.inbound msgs =>
      let s2 := runInbound s1 msgs
      match lookupKey s2.futures fid with
      | some (FutState.resolved env) => (env, s2)
      | _ =>
          ( timeoutEnvelope address
          , { s2 with
              pending_responses := eraseKey s2.pending_responses address
              futures := cancelKey s2.futures fid } )

/-- Translation of send_osc_fire_and_forget: send and acknowledge, or
surface the send exception as a transport error envelope. -/
def sendOscFireAndForget (address : String) (args : List OscArg) (ev : SendEvent) :
    Envelope :=
  match ev with
  | SendEvent.sendFails emsg => sendErrorEnvelope address emsg
  | SendEvent.inbound _ => sentEnvelope address

/-- Python truthiness test on message.get of the address field: None and
the empty string are falsy. -/
def addrFalsy : Option String → Bool
  | none => true
  | some s => s.isEmpty

/-- Command message read from the MCP client (message.get semantics:
absent keys are none). -/
structure CommandMsg where
  command : Option String := none
  address : Option String := none
  args : Option (List OscArg) := none
deriving DecidableEq, Repr

/-- Python str interpolation of an optional string: None prints as the
literal None. -/
def optToString : Option String → String
  | some s => s
  | none => "None"

/-- The missing-address protocol error envelope of process_command. -/
def missingAddressEnvelope : Envelope :=
  { status := "error", message := some "Missing OSC address" }

/-- The unknown-command protocol error envelope of process_command. -/
def unknownCommandEnvelope (c : Option String) : Envelope :=
  { status := "error", message := some ("Unknown command: " ++ optToString c) }

/-- The get_status snapshot envelope. -/
def statusEnvelope (cfg : Config) : Envelope :=
  { status := "ok"
  , daemon := some "running"
  , ableton_host := some cfg.ableton_host
  , ableton_port := some cfg.ableton_port
  , receive_port := some cfg.receive_port
  , socket_port := some cfg.socket_port }

/-- The ping liveness envelope. -/
def pongEnvelope : Envelope :=
  { status := "ok", message := some "pong" }

/-- Outbound datagrams emitted by one relay command: none when the send
raises, exactly one otherwise. -/
def sentList (address : String) (args : List OscArg) : SendEvent →
    List (String × List OscArg)
  | SendEvent.sendFails _ => []
  | SendEvent.inbound _ => [(address, args)]

/-- Result of processing one command: the response envelope, the daemon
state afterwards, and the outbound datagrams sent. -/
structure ProcResult where
  response : Envelope
  state : DaemonState
  sent : List (String × List OscArg)
deriving DecidableEq, Repr

/-- Translation of process_command: dispatch on the command kind tag.
For send_message, validate the address (python falsy check), then route
through the relay-and-await path when the address expects a response
and through fire-and-forget otherwise; get_status and ping return fixed
envelopes; any other kind returns the unknown-command error envelope. -/
def processCommand (cfg : Config) (s : DaemonState) (msg : CommandMsg)
    (ev : SendEvent) : ProcResult :=
  if msg.command = some "send_message" then
    if addrFalsy msg.address then
      { response := missingAddressEnvelope, state := s, sent := [] }
    else
      let a := msg.address.getD ""
      let args := msg.args.getD []
      if expectsResponse a then
        let r := sendOscWithResponse s a args ev
        { response := r.1, state := r.2, sent := sentList a args ev }
      else
        { response := sendOscFireAndForget a args ev, state := s
        , sent := sentList a args ev }
  else if msg.command = some "get_status" then
    { response := statusEnvelope cfg, state := s, sent := [] }
  else if msg.command = some "ping" then
    { response := pongEnvelope, state := s, sent := [] }
  else
    { response := unknownCommandEnvelope msg.command, state := s, sent := [] }

/-- One read from the client connection: a decodable JSON command with
its network environment, or a malformed frame. -/
inductive Frame where
  | valid (msg : CommandMsg) (ev : SendEvent)
  | malformed (emsg : String)
deriving DecidableEq, Repr

/-- The invalid-JSON error envelope of handle_socket_client. -/
def invalidJsonEnvelope (emsg : String) : Envelope :=
  { status := "error", message := some ("Invalid JSON: " ++ emsg) }

/-- Translation of the handle_socket_client loop: every frame gets one
response and the loop continues with the next frame on the same
connection; malformed frames yield an error envelope without closing
the connection. -/
def handleSocketClient (cfg : Config) (s : DaemonState) :
    List Frame → List Envelope × DaemonState
  | [] => ([], s)
  | Frame.valid msg ev :: rest =>
      let r := processCommand cfg s msg ev
      let t := handleSocketClient cfg r.state rest
      (r.response :: t.1, t.2)
  | Frame.malformed emsg :: rest =>
      let t := handleSocketClient cfg s rest
      (invalidJsonEnvelope emsg :: t.1, t.2)

/-- Lock and pending-map events, for the lock-discipline analysis of the
control flow of osc_daemon.py. -/
inductive LockEv where
  | acq
  | rel
  | mutInsert
  | mutRemove
  | mutResolve
  | waitOnFuture
deriving DecidableEq, Repr

/-- The three exits of send_osc_with_response: the future is resolved
before the deadline, the wait times out, or the socket send raises. -/
inductive RespOutcome where
  | replyArrives
  | timeoutElapses
  | sendRaises
deriving DecidableEq, Repr

/-- Event trace of send_osc_with_response, read off its control flow:
the insert happens inside an async-with block on the response lock, the
await on the future happens after that block, and the timeout and
send-exception handlers reacquire the lock around their delete. -/
def sendOscWithResponseTrace : RespOutcome → List LockEv
  | RespOutcome.replyArrives =>
      [LockEv.acq, LockEv.mutInsert, LockEv.rel, LockEv.waitOnFuture]
  | RespOutcome.timeoutElapses =>
      [LockEv.acq, LockEv.mutInsert, LockEv.rel, LockEv.waitOnFuture,
       LockEv.acq, LockEv.mutRemove, LockEv.rel]
  | RespOutcome.sendRaises =>
      [LockEv.acq, LockEv.mutInsert, LockEv.rel,
       LockEv.acq, LockEv.mutRemove, LockEv.rel]

/-- Event trace of handle_ableton_message, read off its control flow: a
plain synchronous callback that resolves the future and deletes the map
entry without ever touching the response lock. -/
def handleAbletonMessageTrace (waiterPresent : Bool) : List LockEv :=
  if waiterPresent then [LockEv.mutResolve, LockEv.mutRemove] else []

/-- Check that every map mutation of a trace happens at positive lock
depth, starting from the given depth. -/
def mutationsLockedFrom : Nat → List LockEv → Bool
  | _, [] => true
  | d, e :: r =>
      match e with
      | LockEv.acq => mutationsLockedFrom (d + 1) r
      | LockEv.rel => mutationsLockedFrom (d - 1) r
      | LockEv.waitOnFuture => mutationsLockedFrom d r
      | _ => decide (0 < d) && mutationsLockedFrom d r

/-- Check that every blocking wait of a trace happens at lock depth
zero, starting from the given depth. -/
def waitsOutsideLockFrom : Nat → List LockEv → Bool
  | _, [] => true
  | d, e :: r =>
      match e with
      | LockEv.acq => waitsOutsideLockFrom (d + 1) r
      | LockEv.rel => waitsOutsideLockFrom (d - 1) r
      | LockEv.waitOnFuture => decide (d = 0) && waitsOutsideLockFrom d r
      | _ => waitsOutsideLockFrom d r

/-- Every map mutation of the trace is performed while holding the lock. -/
def mutationsLocked (t : List LockEv) : Bool := mutationsLockedFrom 0 t

/-- Every blocking wait of the trace is performed outside the lock. -/
def waitsOutsideLock (t : List LockEv) : Bool := waitsOutsideLockFrom 0 t

/-- The trace never acquires or releases the lock at all. -/
def noLockUsed (t : List LockEv) : Bool :=
  t.all (fun e => !(decide (e = LockEv.acq)) && !(decide (e = LockEv.rel)))

/-- The daemon state at startup: empty pending map, empty future heap. -/
def s0 : DaemonState := { pending_responses := [], futures := [], nextId := 0 }

/-- The default configuration of osc_daemon.py. -/
def cfg0 : Config :=
  { socket_host := "127.0.0.1", socket_port := 65432
  , ableton_host := "127.0.0.1", ableton_port := 11000
  , receive_port := 11001, response_timeout := 5 }

/-- A daemon state with one pending waiter registered for the tempo
query address, used as a concrete input in witnesses. -/
def sW : DaemonState :=
  { pending_responses := [("/live/song/get/tempo", 0)]
  , futures := [(0, FutState.pending)]
  , nextId := 1 }

theorem lookupKey_setKey_self {α β : Type} [DecidableEq α] (l : List (α × β)) (a : α)
    (b : β) (h : (lookupKey l a).isSome = true) : lookupKey (setKey l a b) a = some b := by
  induction l with
  | nil => simp [lookupKey] at h
  | cons kv r ih =>
      obtain ⟨k, v⟩ := kv
      by_cases hk : k = a
      · subst hk
        simp [setKey, lookupKey]
      · simp [setKey, lookupKey, hk] at h ⊢
        exact ih h

theorem lookupKey_setKey_ne {α β : Type} [DecidableEq α] (l : List (α × β)) (a c : α)
    (b : β) (h : c ≠ a) : lookupKey (setKey l a b) c = lookupKey l c := by
  induction l with
  | nil => rfl
  | cons kv r ih =>
      obtain ⟨k, v⟩ := kv
      by_cases hk : k = a
      · subst hk
        have hkc : ¬ (k = c) := fun he => h (he ▸ rfl)
        simp [setKey, lookupKey, hkc]
      · simp [setKey, lookupKey, hk, ih]

theorem lookupKey_append {α β : Type} [DecidableEq α] (l m : List (α × β)) (a : α) :
    lookupKey (l ++ m) a =
      match lookupKey l a with
      | some b => some b
      | none => lookupKey m a := by
  induction l with
  | nil => simp [lookupKey]
  | cons kv r ih =>
      obtain ⟨k, v⟩ := kv
      by_cases hk : k = a
      · simp [lookupKey, hk]
      · simp [lookupKey, hk, ih]

theorem lookupKey_insertReplace_self {α β : Type} [DecidableEq α] (l : List (α × β))
    (a : α) (b : β) : lookupKey (insertReplace l a b) a = some b := by
  unfold insertReplace
  by_cases h : (lookupKey l a).isSome = true
  · simp [h, lookupKey_setKey_self l a b h]
  · have hn : lookupKey l a = none := by
      cases hl : lookupKey l a with
      | none => rfl
      | some w => rw [hl] at h; simp at h
    simp [h, lookupKey_append, hn, lookupKey]

theorem lookupKey_insertReplace_ne {α β : Type} [DecidableEq α] (l : List (α × β))
    (a c : α) (b : β) (h : c ≠ a) :
    lookupKey (insertReplace l a b) c = lookupKey l c := by
  unfold insertReplace
  by_cases hs : (lookupKey l a).isSome = true
  · simp [hs, lookupKey_setKey_ne l a c b h]
  · have hac : ¬ (a = c) := fun he => h (he ▸ rfl)
    simp [hs, lookupKey_append, lookupKey, hac]
    cases hl : lookupKey l c with
    | none => simp
    | some w => simp

theorem lookupKey_eraseKey_ne {α β : Type} [DecidableEq α] (l : List (α × β)) (a c : α)
    (h : c ≠ a) : lookupKey (eraseKey l a) c = lookupKey l c := by
  induction l with
  | nil => rfl
  | cons kv r ih =>
      obtain ⟨k, v⟩ := kv
      by_cases hk : k = a
      · subst hk
        have hkc : ¬ (k = c) := fun he => h (he ▸ rfl)
        simp [eraseKey, lookupKey, hkc]
      · simp [eraseKey, lookupKey, hk, ih]

theorem lookupKey_eq_none_of_memB_false {α β : Type} [DecidableEq α] (l : List (α × β))
    (a : α) (h : memB a (keysOf l) = false) : lookupKey l a = none := by
  induction l with
  | nil => rfl
  | cons kv r ih =>
      obtain ⟨k, v⟩ := kv
      simp [keysOf, memB] at h
      obtain ⟨h1, h2⟩ := h
      have hk : ¬ (k = a) := fun he => h1 (he ▸ rfl)
      simp [lookupKey, hk]
      exact ih (by simpa [keysOf] using h2)

theorem lookupKey_eraseKey_self {α β : Type} [DecidableEq α] (l : List (α × β)) (a : α)
    (h : nodupKeys l = true) : lookupKey (eraseKey l a) a = none := by
  induction l with
  | nil => rfl
  | cons kv r ih =>
      obtain ⟨k, v⟩ := kv
      simp [nodupKeys, keysOf, noDupB] at h
      obtain ⟨h1, h2⟩ := h
      by_cases hk : k = a
      · subst hk
        simp [eraseKey]
        exact lookupKey_eq_none_of_memB_false r k (by
          cases hm : memB k (keysOf r) with
          | false => rfl
          | true => exact absurd hm (by simpa [keysOf] using h1))
      · simp [eraseKey, lookupKey, hk]
        exact ih (by simp [nodupKeys, keysOf]; exact h2)

theorem keysOf_setKey {α β : Type} [DecidableEq α] (l : List (α × β)) (a : α) (b : β) :
    keysOf (setKey l a b) = keysOf l := by
  induction l with
  | nil => rfl
  | cons kv r ih =>
      obtain ⟨k, v⟩ := kv
      by_cases hk : k = a
      · subst hk
        simp [setKey, keysOf]
      · simp [setKey, keysOf, hk]
        exact (by simpa [keysOf] using ih)

theorem nodupKeys_setKey {α β : Type} [DecidableEq α] (l : List (α × β)) (a : α)
    (b : β) : nodupKeys (setKey l a b) = nodupKeys l := by
  unfold nodupKeys
  rw [keysOf_setKey]

theorem memB_append {α : Type} [DecidableEq α] (a : α) (l m : List α) :
    memB a (l ++ m) = (memB a l || memB a m) := by
  induction l with
  | nil => simp [memB]
  | cons b r ih => simp [memB, ih, Bool.or_assoc]

theorem nodupKeys_append_singleton {α β : Type} [DecidableEq α] (l : List (α × β))
    (a : α) (b : β) (h : nodupKeys l = true) (hn : lookupKey l a = none) :
    nodupKeys (l ++ [(a, b)]) = true := by
  induction l with
  | nil => simp [nodupKeys, keysOf, noDupB, memB]
  | cons kv r ih =>
      obtain ⟨k, v⟩ := kv
      simp [nodupKeys, keysOf, noDupB] at h
      obtain ⟨h1, h2⟩ := h
      by_cases hk : k = a
      · simp [lookupKey, hk] at hn
      · simp [lookupKey, hk] at hn
        have hr := ih (by simp [nodupKeys, keysOf]; exact h2) hn
        simp [nodupKeys, keysOf, noDupB, memB_append, memB, hk]
        constructor
        · exact h1
        · simpa [nodupKeys, keysOf] using hr

theorem nodupKeys_insertReplace {α β : Type} [DecidableEq α] (l : List (α × β)) (a : α)
    (b : β) (h : nodupKeys l = true) : nodupKeys (insertReplace l a b) = true := by
  unfold insertReplace
  by_cases hs : (lookupKey l a).isSome = true
  · simp [hs, nodupKeys_setKey, h]
  · have hn : lookupKey l a = none := by
      cases hl : lookupKey l a with
      | none => rfl
      | some w => rw [hl] at hs; simp at hs
    simp [hs]
    exact nodupKeys_append_singleton l a b h hn

theorem memB_keysOf_eraseKey {α β : Type} [DecidableEq α] (l : List (α × β)) (a c : α)
    (h : memB c (keysOf (eraseKey l a)) = true) : memB c (keysOf l) = true := by
  induction l with
  | nil => simpa [eraseKey] using h
  | cons kv r ih =>
      obtain ⟨k, v⟩ := kv
      by_cases hk : k = a
      · subst hk
        simp [eraseKey] at h
        simp [keysOf, memB]
        right
        simpa [keysOf] using h
      · simp [eraseKey, keysOf, memB, hk] at h
        rcases h with h | h
        · simp [keysOf, memB, h]
        · have := ih (by simpa [keysOf] using h)
          simp [keysOf, memB]
          right
          simpa [keysOf] using this

theorem nodupKeys_eraseKey {α β : Type} [DecidableEq α] (l : List (α × β)) (a : α)
    (h : nodupKeys l = true) : nodupKeys (eraseKey l a) = true := by
  induction l with
  | nil => rfl
  | cons kv r ih =>
      obtain ⟨k, v⟩ := kv
      simp [nodupKeys, keysOf, noDupB] at h
      obtain ⟨h1, h2⟩ := h
      by_cases hk : k = a
      · subst hk
        simp [eraseKey, nodupKeys, keysOf]
        exact h2
      · have hr := ih (by simp [nodupKeys, keysOf]; exact h2)
        simp [eraseKey, hk, nodupKeys, keysOf, noDupB]
        constructor
        · cases hm : memB k (List.map Prod.fst (eraseKey r a)) with
          | false => rfl
          | true =>
              have hmm := memB_keysOf_eraseKey r a k (by simpa [keysOf] using hm)
              simp [keysOf] at hmm
              rw [hmm] at h1
              simp at h1
        · simpa [nodupKeys, keysOf] using hr

theorem nodupKeys_handleAbletonMessage (s : DaemonState) (address : String)
    (args : List OscArg) (h : nodupKeys s.pending_responses = true) :
    nodupKeys (handleAbletonMessage s address args).pending_responses = true := by
  unfold handleAbletonMessage
  cases hl : lookupKey s.pending_responses address with
  | none => simpa using h
  | some fid =>
      simp
      exact nodupKeys_eraseKey _ _ h

theorem nodupKeys_runInbound (msgs : List (String × List OscArg)) (s : DaemonState)
    (h : nodupKeys s.pending_responses = true) :
    nodupKeys (runInbound s msgs).pending_responses = true := by
  induction msgs generalizing s with
  | nil => simpa [runInbound] using h
  | cons m rest ih =>
      have h1 := nodupKeys_handleAbletonMessage s m.1 m.2 h
      have h2 := ih (handleAbletonMessage s m.1 m.2) h1
      simpa [runInbound] using h2

theorem nodupKeys_sendOscWithResponse (s : DaemonState) (address : String)
    (args : List OscArg) (ev : SendEvent) (h : nodupKeys s.pending_responses = true) :
    nodupKeys (sendOscWithResponse s address args ev).2.pending_responses = true := by
  unfold sendOscWithResponse registerWaiter
  have hins : nodupKeys (insertReplace s.pending_responses address s.nextId) = true :=
    nodupKeys_insertReplace _ _ _ h
  cases ev with
  | sendFails emsg =>
      simp
      exact nodupKeys_eraseKey _ _ hins
  | inbound msgs =>
      simp
      have hrun : nodupKeys (runInbound
          { pending_responses := insertReplace s.pending_responses address s.nextId
          , futures := s.futures ++ [(s.nextId, FutState.pending)]
          , nextId := s.nextId + 1 } msgs).pending_responses = true :=
        nodupKeys_runInbound msgs _ hins
      cases hf : lookupKey (runInbound
          { pending_responses := insertReplace s.pending_responses address s.nextId
          , futures := s.futures ++ [(s.nextId, FutState.pending)]
          , nextId := s.nextId + 1 } msgs).futures s.nextId with
      | none => simp [hf]; exact nodupKeys_eraseKey _ _ hrun
      | some fs =>
          cases fs with
          | pending => simp [hf]; exact nodupKeys_eraseKey _ _ hrun
          | resolved env => simp [hf]; exact hrun
          | cancelled => simp [hf]; exact nodupKeys_eraseKey _ _ hrun

theorem sendOscWithResponse_reply (s : DaemonState) (address : String)
    (cargs dargs : List OscArg) (hfresh : lookupKey s.futures s.nextId = none) :
    sendOscWithResponse s address cargs (SendEvent.inbound [(address, dargs)])
      = ( successEnvelope address dargs
        , { pending_responses :=
              eraseKey (insertReplace s.pending_responses address s.nextId) address
          , futures := setKey (s.futures ++ [(s.nextId, FutState.pending)]) s.nextId
              (FutState.resolved (successEnvelope address dargs))
          , nextId := s.nextId + 1 } ) := by
  unfold sendOscWithResponse registerWaiter runInbound
  simp only [List.foldl_cons, List.foldl_nil]
  have hpend : lookupKey (insertReplace s.pending_responses address s.nextId) address
      = some s.nextId := lookupKey_insertReplace_self _ _ _
  have hfut : lookupKey (s.futures ++ [(s.nextId, FutState.pending)]) s.nextId
      = some FutState.pending := by
    rw [lookupKey_append]
    simp [hfresh, lookupKey]
  have hhandle : handleAbletonMessage
      { pending_responses := insertReplace s.pending_responses address s.nextId
      , futures := s.futures ++ [(s.nextId, FutState.pending)]
      , nextId := s.nextId + 1 } address dargs
      = { pending_responses :=
            eraseKey (insertReplace s.pending_responses address s.nextId) address
        , futures := setKey (s.futures ++ [(s.nextId, FutState.pending)]) s.nextId
            (FutState.resolved (successEnvelope address dargs))
        , nextId := s.nextId + 1 } := by
    unfold handleAbletonMessage
    simp [hpend, hfut, futureDone]
  rw [hhandle]
  have hres : lookupKey (setKey (s.futures ++ [(s.nextId, FutState.pending)]) s.nextId
      (FutState.resolved (successEnvelope address dargs))) s.nextId
      = some (FutState.resolved (successEnvelope address dargs)) :=
    lookupKey_setKey_self _ _ _ (by rw [hfut]; rfl)
  simp [hres]

theorem sendOscWithResponse_timeout (s : DaemonState) (address : String)
    (cargs : List OscArg) (hfresh : lookupKey s.futures s.nextId = none) :
    sendOscWithResponse s address cargs (SendEvent.inbound [])
      = ( timeoutEnvelope address
        , { pending_responses :=
              eraseKey (insertReplace s.pending_responses address s.nextId) address
          , futures := cancelKey (s.futures ++ [(s.nextId, FutState.pending)]) s.nextId
          , nextId := s.nextId + 1 } ) := by
  unfold sendOscWithResponse registerWaiter runInbound
  simp only [List.foldl_nil]
  have hfut : lookupKey (s.futures ++ [(s.nextId, FutState.pending)]) s.nextId
      = some FutState.pending := by
    rw [lookupKey_append]
    simp [hfresh, lookupKey]
  simp [hfut]

theorem sendOscWithResponse_sendFails (s : DaemonState) (address : String)
    (cargs : List OscArg) (emsg : String) :
    sendOscWithResponse s address cargs (SendEvent.sendFails emsg)
      = ( sendErrorEnvelope address emsg
        , { pending_responses :=
              eraseKey (insertReplace s.pending_responses address s.nextId) address
          , futures := s.futures ++ [(s.nextId, FutState.pending)]
          , nextId := s.nextId + 1 } ) := by
  unfold sendOscWithResponse registerWaiter
  simp

theorem timeoutEnvelope_ne_sendErrorEnvelope (a b emsg : String) :
    timeoutEnvelope a ≠ sendErrorEnvelope b emsg := by
  intro h
  have h2 : (timeoutEnvelope a).message = (sendErrorEnvelope b emsg).message := by rw [h]
  simp [timeoutEnvelope, sendErrorEnvelope] at h2
  obtain ⟨la⟩ := a
  obtain ⟨lm⟩ := emsg
  have h3 := congrArg (fun s : String => s.data.head?) h2
  have h4 : (some 'T' : Option Char) = some 'E' := h3
  simp at h4

theorem handleAbletonMessage_drop (s : DaemonState) (address : String)
    (dargs : List OscArg) (h : lookupKey s.pending_responses address = none) :
    handleAbletonMessage s address dargs = s := by
  unfold handleAbletonMessage
  rw [h]

theorem handleAbletonMessage_found_pending_responses (s : DaemonState) (address : String)
    (dargs : List OscArg) (fid : Nat)
    (hl : lookupKey s.pending_responses address = some fid) :
    (handleAbletonMessage s address dargs).pending_responses
      = eraseKey s.pending_responses address := by
  unfold handleAbletonMessage
  rw [hl]

theorem handleAbletonMessage_found_futures (s : DaemonState) (address : String)
    (dargs : List OscArg) (fid : Nat)
    (hl : lookupKey s.pending_responses address = some fid)
    (hf : lookupKey s.futures fid = some FutState.pending) :
    (handleAbletonMessage s address dargs).futures
      = setKey s.futures fid (FutState.resolved (successEnvelope address dargs)) := by
  unfold handleAbletonMessage
  rw [hl]
  simp [hf, futureDone]

/-- Claim C1, counterexample: the claim states that the resolve-and-remove
mutation performed by the datagram receiver callback is done while
holding the response lock; on the trace of handle_ableton_message with a
waiter present, the mutations happen at lock depth zero, so the claim as
stated is false. -/
theorem lockDiscipline_cex :
    ¬ (mutationsLocked (handleAbletonMessageTrace true) = true) := by decide

/-- Claim C1, amended: within send_osc_with_response every pending-map
mutation (the insert, and the removal on timeout or on a send error)
happens while holding the response lock and the blocking wait on the
future happens outside the lock; the datagram receiver callback
handle_ableton_message, however, mutates the map without ever touching
the lock (it is a synchronous callback on the event loop). -/
theorem lockDiscipline_amended :
    (∀ o, mutationsLocked (sendOscWithResponseTrace o) = true
      ∧ waitsOutsideLock (sendOscWithResponseTrace o) = true)
  ∧ (∀ b, noLockUsed (handleAbletonMessageTrace b) = true) := by
  constructor
  · intro o
    cases o <;> exact ⟨by decide, by decide⟩
  · intro b
    cases b <;> decide

/-- Claim C2: the pending map holds at most one waiter per address:
registration stores the fresh future id under the address, silently
replacing any existing binding (the key set does not grow when the
address was already present), and registration, the receiver callback
and the whole relay-and-await path all preserve distinctness of the
keys of the map. -/
theorem singleWaiterPerAddress (s : DaemonState) (address : String)
    (h : nodupKeys s.pending_responses = true) :
    nodupKeys (registerWaiter s address).2.pending_responses = true
  ∧ lookupKey (registerWaiter s address).2.pending_responses address = some s.nextId
  ∧ ((lookupKey s.pending_responses address).isSome = true →
      keysOf (registerWaiter s address).2.pending_responses = keysOf s.pending_responses)
  ∧ (∀ dargs, nodupKeys (handleAbletonMessage s address dargs).pending_responses = true)
  ∧ (∀ cargs ev, nodupKeys (sendOscWithResponse s address cargs ev).2.pending_responses
      = true) := by
  refine ⟨?_, ?_, ?_, ?_, ?_⟩
  · simpa [registerWaiter] using nodupKeys_insertReplace s.pending_responses address s.nextId h
  · simpa [registerWaiter] using lookupKey_insertReplace_self s.pending_responses address s.nextId
  · intro hs
    simp [registerWaiter, insertReplace, hs, keysOf_setKey]
  · intro dargs
    exact nodupKeys_handleAbletonMessage s address dargs h
  · intro cargs ev
    exact nodupKeys_sendOscWithResponse s address cargs ev h

/-- Claim C2, witness at a state that already holds a waiter for the
address: registration overwrites it and the key set is unchanged. -/
theorem singleWaiterPerAddress_witness :
    nodupKeys sW.pending_responses = true
  ∧ lookupKey (registerWaiter sW "/live/song/get/tempo").2.pending_responses
      "/live/song/get/tempo" = some sW.nextId
  ∧ keysOf (registerWaiter sW "/live/song/get/tempo").2.pending_responses
      = keysOf sW.pending_responses :=
  ⟨by decide,
    (singleWaiterPerAddress sW "/live/song/get/tempo" (by decide)).2.1,
    (singleWaiterPerAddress sW "/live/song/get/tempo" (by decide)).2.2.1 (by decide)⟩

/-- Claim C3: on an inbound datagram, when a pending waiter exists for
the address its future is resolved with exactly the datagram arguments
and the entry is removed (so a repeated datagram changes nothing more:
delivery is exactly once); when no waiter exists the state is entirely
unchanged; and in both cases the entries of all other addresses are
untouched. -/
theorem resolveDatagramSemantics (s : DaemonState) (address : String)
    (dargs : List OscArg) (h : nodupKeys s.pending_responses = true) :
    (∀ fid, lookupKey s.pending_responses address = some fid →
        lookupKey (handleAbletonMessage s address dargs).pending_responses address = none
      ∧ (lookupKey s.futures fid = some FutState.pending →
          lookupKey (handleAbletonMessage s address dargs).futures fid
            = some (FutState.resolved (successEnvelope address dargs)))
      ∧ (∀ dargs2, handleAbletonMessage (handleAbletonMessage s address dargs) address dargs2
          = handleAbletonMessage s address dargs))
  ∧ (lookupKey s.pending_responses address = none →
      handleAbletonMessage s address dargs = s)
  ∧ (∀ other, other ≠ address →
      lookupKey (handleAbletonMessage s address dargs).pending_responses other
        = lookupKey s.pending_responses other) := by
  refine ⟨?_, ?_, ?_⟩
  · intro fid hl
    refine ⟨?_, fun hf => ?_, fun dargs2 => ?_⟩
    · rw [handleAbletonMessage_found_pending_responses s address dargs fid hl]
      exact lookupKey_eraseKey_self _ _ h
    · rw [handleAbletonMessage_found_futures s address dargs fid hl hf]
      exact lookupKey_setKey_self _ _ _ (by rw [hf]; rfl)
    · apply handleAbletonMessage_drop
      rw [handleAbletonMessage_found_pending_responses s address dargs fid hl]
      exact lookupKey_eraseKey_self _ _ h
  · exact fun hn => handleAbletonMessage_drop s address dargs hn
  · intro other hne
    cases hl : lookupKey s.pending_responses address with
    | none => rw [handleAbletonMessage_drop s address dargs hl]
    | some fid =>
        rw [handleAbletonMessage_found_pending_responses s address dargs fid hl]
        exact lookupKey_eraseKey_ne _ _ _ hne

/-- Claim C3, witness: at a state with a pending waiter for the tempo
address, the inbound datagram resolves the future with exactly its
argument list. -/
theorem resolveDatagramSemantics_witness :
    nodupKeys sW.pending_responses = true
  ∧ lookupKey sW.pending_responses "/live/song/get/tempo" = some 0
  ∧ lookupKey sW.futures 0 = some FutState.pending
  ∧ lookupKey (handleAbletonMessage sW "/live/song/get/tempo" [OscArg.int 120]).futures 0
      = some (FutState.resolved (successEnvelope "/live/song/get/tempo" [OscArg.int 120])) :=
  ⟨by decide, by decide, by decide,
    (((resolveDatagramSemantics sW "/live/song/get/tempo" [OscArg.int 120] (by decide)).1
      0 (by decide)).2.1 (by decide))⟩

/-- Claim C4: when the wait of a response-bearing relay command elapses
with no matching inbound datagram, the result is the timeout error
envelope (its message names the address and differs from every
transport error envelope), the waiter entry is removed from the map,
and a late-arriving datagram for that address leaves the state
unchanged; the relay command as a whole returns that envelope. -/
theorem relayTimeoutSemantics (cfg : Config) (s : DaemonState) (address : String)
    (cargs : List OscArg) (margs : Option (List OscArg))
    (hnd : nodupKeys s.pending_responses = true)
    (hfresh : lookupKey s.futures s.nextId = none)
    (hexp : expectsResponse address = true)
    (ha : addrFalsy (some address) = false) :
    (sendOscWithResponse s address cargs (SendEvent.inbound [])).1 = timeoutEnvelope address
  ∧ (sendOscWithResponse s address cargs (SendEvent.inbound [])).1.message
      = some ("Timeout waiting for response to " ++ address)
  ∧ (∀ emsg, (sendOscWithResponse s address cargs (SendEvent.inbound [])).1
      ≠ sendErrorEnvelope address emsg)
  ∧ lookupKey (sendOscWithResponse s address cargs
      (SendEvent.inbound [])).2.pending_responses address = none
  ∧ (∀ dargs, handleAbletonMessage (sendOscWithResponse s address cargs
      (SendEvent.inbound [])).2 address dargs
      = (sendOscWithResponse s address cargs (SendEvent.inbound [])).2)
  ∧ (processCommand cfg s ⟨some "send_message", some address, margs⟩
      (SendEvent.inbound [])).response = timeoutEnvelope address := by
  have hsend := sendOscWithResponse_timeout s address cargs hfresh
  have hpend : lookupKey (sendOscWithResponse s address cargs
      (SendEvent.inbound [])).2.pending_responses address = none := by
    rw [hsend]
    exact lookupKey_eraseKey_self _ _ (nodupKeys_insertReplace _ _ _ hnd)
  refine ⟨by rw [hsend], by rw [hsend]; rfl, ?_, hpend, ?_, ?_⟩
  · intro emsg
    rw [hsend]
    exact timeoutEnvelope_ne_sendErrorEnvelope address address emsg
  · intro dargs
    exact handleAbletonMessage_drop _ address dargs hpend
  · have hsend2 := sendOscWithResponse_timeout s address (margs.getD []) hfresh
    simp [processCommand, ha, hexp, hsend2]

/-- Claim C4, witness: the tempo query at the initial state with an
empty wait window yields the timeout envelope. -/
theorem relayTimeoutSemantics_witness :
    nodupKeys s0.pending_responses = true
  ∧ lookupKey s0.futures s0.nextId = none
  ∧ expectsResponse "/live/song/get/tempo" = true
  ∧ addrFalsy (some "/live/song/get/tempo") = false
  ∧ (processCommand cfg0 s0 ⟨some "send_message", some "/live/song/get/tempo", some []⟩
      (SendEvent.inbound [])).response = timeoutEnvelope "/live/song/get/tempo" :=
  ⟨by decide, rfl, by decide, by decide,
    (relayTimeoutSemantics cfg0 s0 "/live/song/get/tempo" [] (some [])
      (by decide) rfl (by decide) (by decide)).2.2.2.2.2⟩

/-- Claim C5: a relay command whose address matches a response-bearing
head is dispatched through the relay-and-await path, and any other
relay command is sent fire-and-forget: the acknowledgement is the sent
envelope, the daemon state (in particular the waiter map) is untouched,
and exactly the one outbound datagram is emitted, independent of the
datagrams received. -/
theorem relayRoutingRule (cfg : Config) (s : DaemonState) (address : String)
    (cargs : List OscArg) (ha : addrFalsy (some address) = false) :
    (expectsResponse address = true → ∀ ev,
        processCommand cfg s ⟨some "send_message", some address, some cargs⟩ ev
          = { response := (sendOscWithResponse s address cargs ev).1
            , state := (sendOscWithResponse s address cargs ev).2
            , sent := sentList address cargs ev })
  ∧ (expectsResponse address = false → ∀ msgs,
        (processCommand cfg s ⟨some "send_message", some address, some cargs⟩
            (SendEvent.inbound msgs)).response = sentEnvelope address
      ∧ (processCommand cfg s ⟨some "send_message", some address, some cargs⟩
            (SendEvent.inbound msgs)).state = s
      ∧ (processCommand cfg s ⟨some "send_message", some address, some cargs⟩
            (SendEvent.inbound msgs)).sent = [(address, cargs)]) := by
  constructor
  · intro hexp ev
    simp [processCommand, ha, hexp]
  · intro hexp msgs
    refine ⟨?_, ?_, ?_⟩ <;>
      simp [processCommand, ha, hexp, sendOscFireAndForget, sentList]

/-- Claim C5, witness: a non-matching address gets the sent envelope
immediately with the state unchanged. -/
theorem relayRoutingRule_witness :
    addrFalsy (some "/live/song/stop_playing") = false
  ∧ expectsResponse "/live/song/stop_playing" = false
  ∧ (processCommand cfg0 s0 ⟨some "send_message", some "/live/song/stop_playing", some []⟩
      (SendEvent.inbound [])).response = sentEnvelope "/live/song/stop_playing" :=
  ⟨by decide, by decide,
    ((relayRoutingRule cfg0 s0 "/live/song/stop_playing" [] (by decide)).2
      (by decide) []).1⟩

/-- Claim C6, counterexample: the wire command kinds of the code are
send_message, get_status and ping; the kind tags relay and status named
by the claim are answered with the unknown-command error envelope, so
the dispatcher does not accept them. -/
theorem commandKinds_cex :
    (processCommand cfg0 s0 { command := some "relay" } (SendEvent.inbound [])).response
      = { status := "error", message := some "Unknown command: relay" }
  ∧ (processCommand cfg0 s0 { command := some "status" } (SendEvent.inbound [])).response
      = { status := "error", message := some "Unknown command: status" } := by
  exact ⟨by decide, by decide⟩

/-- Claim C6, amended: the dispatcher accepts exactly the three command
kinds send_message, get_status and ping; every envelope with any other
kind tag gets an error envelope naming the unrecognized kind, while
get_status and ping get their fixed envelopes and send_message is
routed to relay handling. -/
theorem commandKinds_amended (cfg : Config) (s : DaemonState) (ev : SendEvent)
    (c : Option String) (addr : Option String) (margs : Option (List OscArg))
    (h1 : c ≠ some "send_message") (h2 : c ≠ some "get_status")
    (h3 : c ≠ some "ping") :
    (processCommand cfg s ⟨c, addr, margs⟩ ev).response = unknownCommandEnvelope c
  ∧ (processCommand cfg s ⟨some "get_status", addr, margs⟩ ev).response = statusEnvelope cfg
  ∧ (processCommand cfg s ⟨some "ping", addr, margs⟩ ev).response = pongEnvelope
  ∧ (processCommand cfg s ⟨some "send_message", none, margs⟩ ev).response
      = missingAddressEnvelope := by
  refine ⟨?_, ?_, ?_, ?_⟩
  · simp [processCommand, h1, h2, h3]
  · simp [processCommand]
  · simp [processCommand]
  · simp [processCommand, addrFalsy]

/-- Claim C6 amended, witness: an unrecognized kind tag is named in the
error envelope. -/
theorem commandKinds_amended_witness :
    (some "bogus" : Option String) ≠ some "send_message"
  ∧ (some "bogus" : Option String) ≠ some "get_status"
  ∧ (some "bogus" : Option String) ≠ some "ping"
  ∧ (processCommand cfg0 s0 ⟨some "bogus", none, none⟩ (SendEvent.inbound [])).response
      = unknownCommandEnvelope (some "bogus") :=
  ⟨by decide, by decide, by decide,
    (commandKinds_amended cfg0 s0 (SendEvent.inbound []) (some "bogus") none none
      (by decide) (by decide) (by decide)).1⟩

/-- Claim C7: for a response-bearing address, a relay command followed
by a matching inbound datagram before the deadline resolves to the
success envelope whose data field is exactly the datagram argument
list, order preserved. -/
theorem correlationSuccess (cfg : Config) (s : DaemonState) (address : String)
    (cargs dargs : List OscArg)
    (hfresh : lookupKey s.futures s.nextId = none)
    (hexp : expectsResponse address = true)
    (ha : addrFalsy (some address) = false) :
    (processCommand cfg s ⟨some "send_message", some address, some cargs⟩
        (SendEvent.inbound [(address, dargs)])).response = successEnvelope address dargs
  ∧ (processCommand cfg s ⟨some "send_message", some address, some cargs⟩
        (SendEvent.inbound [(address, dargs)])).response.data = some dargs := by
  have hsend := sendOscWithResponse_reply s address cargs dargs hfresh
  constructor
  · simp [processCommand, ha, hexp, hsend]
  · simp [processCommand, ha, hexp, hsend, successEnvelope]

/-- Claim C7, witness: the tempo query answered by a 120 datagram
yields success with data exactly that argument list. -/
theorem correlationSuccess_witness :
    lookupKey s0.futures s0.nextId = none
  ∧ expectsResponse "/live/song/get/tempo" = true
  ∧ addrFalsy (some "/live/song/get/tempo") = false
  ∧ (processCommand cfg0 s0 ⟨some "send_message", some "/live/song/get/tempo", some []⟩
      (SendEvent.inbound [("/live/song/get/tempo", [OscArg.int 120])])).response
      = successEnvelope "/live/song/get/tempo" [OscArg.int 120] :=
  ⟨rfl, by decide, by decide,
    (correlationSuccess cfg0 s0 "/live/song/get/tempo" [] [OscArg.int 120]
      rfl (by decide) (by decide)).1⟩

/-- Claim C8: when the outbound send of a response-bearing relay command
raises, the registered waiter entry is removed again (no leak) and the
caller gets the transport error envelope describing the failure. -/
theorem sendFailureCleanup (cfg : Config) (s : DaemonState) (address : String)
    (cargs : List OscArg) (emsg : String) (margs : Option (List OscArg))
    (hnd : nodupKeys s.pending_responses = true)
    (hexp : expectsResponse address = true)
    (ha : addrFalsy (some address) = false) :
    (sendOscWithResponse s address cargs (SendEvent.sendFails emsg)).1
      = sendErrorEnvelope address emsg
  ∧ (sendOscWithResponse s address cargs (SendEvent.sendFails emsg)).1.message
      = some ("Error sending OSC message: " ++ emsg)
  ∧ lookupKey (sendOscWithResponse s address cargs
      (SendEvent.sendFails emsg)).2.pending_responses address = none
  ∧ (processCommand cfg s ⟨some "send_message", some address, margs⟩
      (SendEvent.sendFails emsg)).response = sendErrorEnvelope address emsg := by
  have hsend := sendOscWithResponse_sendFails s address cargs emsg
  refine ⟨by rw [hsend], by rw [hsend]; rfl, ?_, ?_⟩
  · rw [hsend]
    exact lookupKey_eraseKey_self _ _ (nodupKeys_insertReplace _ _ _ hnd)
  · have hsend2 := sendOscWithResponse_sendFails s address (margs.getD []) emsg
    simp [processCommand, ha, hexp, hsend2]

/-- Claim C8, witness: a failing send on the tempo query leaves no
waiter entry behind and returns the transport error envelope. -/
theorem sendFailureCleanup_witness :
    nodupKeys s0.pending_responses = true
  ∧ expectsResponse "/live/song/get/tempo" = true
  ∧ addrFalsy (some "/live/song/get/tempo") = false
  ∧ lookupKey (sendOscWithResponse s0 "/live/song/get/tempo" []
      (SendEvent.sendFails "boom")).2.pending_responses "/live/song/get/tempo" = none :=
  ⟨by decide, by decide, by decide,
    (sendFailureCleanup cfg0 s0 "/live/song/get/tempo" [] "boom" (some [])
      (by decide) (by decide) (by decide)).2.2.1⟩

/-- Claim C9: a relay command without an address yields the
missing-address error envelope, sends no outbound datagram, leaves the
state (and so the waiter map) unchanged, and the connection keeps
serving subsequent commands. -/
theorem missingAddressHandling (cfg : Config) (s : DaemonState)
    (margs : Option (List OscArg)) (ev ev2 : SendEvent) :
    (processCommand cfg s ⟨some "send_message", none, margs⟩ ev).response
      = missingAddressEnvelope
  ∧ (processCommand cfg s ⟨some "send_message", none, margs⟩ ev).sent = []
  ∧ (processCommand cfg s ⟨some "send_message", none, margs⟩ ev).state = s
  ∧ (handleSocketClient cfg s
      [ Frame.valid ⟨some "send_message", none, margs⟩ ev
      , Frame.valid ⟨some "ping", none, none⟩ ev2 ]).1
      = [missingAddressEnvelope, pongEnvelope] := by
  refine ⟨?_, ?_, ?_, ?_⟩ <;> simp [processCommand, addrFalsy, handleSocketClient]

/-- Claim C10: a relay command whose address field is the empty string
is treated identically to one with no address field at all: same
missing-address error envelope, no outbound datagram. -/
theorem emptyAddressFalsy (cfg : Config) (s : DaemonState)
    (margs : Option (List OscArg)) (ev : SendEvent) :
    processCommand cfg s ⟨some "send_message", some "", margs⟩ ev
      = processCommand cfg s ⟨some "send_message", none, margs⟩ ev
  ∧ (processCommand cfg s ⟨some "send_message", some "", margs⟩ ev).response
      = missingAddressEnvelope
  ∧ (processCommand cfg s ⟨some "send_message", some "", margs⟩ ev).sent = [] := by
  have he : ("" : String).isEmpty = true := by decide
  refine ⟨?_, ?_, ?_⟩ <;> simp [processCommand, addrFalsy, he]
